import Mathlib

/-!
# Verification of the `ws2` workspace pane-management core

A shallow embedding of `crates/ws2/src/ws2.rs` (the workspace pane-management
core): the item registry (builders and handle converters keyed by dynamic type
identifiers), panes, the recursive pane tree, and the `Workspace` open /
activate / close workflows.

Rust dynamic types (`TypeId`) are modelled as naturals; reference-counted view
handles are modelled as records carrying the dynamic view type, the identity
assigned by the view context, and the wrapped project-item model handle.
Operations that can panic in Rust (`Option::unwrap`, out-of-range
`Vec::splice`, the unchecked `downcast().unwrap()` calls inside registered
builder and converter closures) are modelled in an `Except String` layer whose
`error` constructor represents a panic; the recoverable `anyhow::Result` layer
of `build_project_pane_item` and `Workspace::open` is a nested
`Except String` value carrying the source's error message.

The backing `project` crate is not part of this repository's sources; its
handle interface is modelled from the spec's collaborator contract: a model
handle exposes a dynamic model kind (`item_type`) and an optional stable entry
identifier (`entry_id`).
-/

namespace Ws2

/-- Dynamic type identifier (`std::any::TypeId`). -/
abbrev TypeId := Nat

/-- Stable entry identifier of a project entry (`ProjectEntryId`). -/
abbrev EntryId := Nat

/-- Pane identifier (`type PaneId = usize`). -/
abbrev PaneId := Nat

/-- Modelled from the spec: the `project` crate's `ProjectItemHandle`
interface (the crate itself is not under this repository's sources). A model
handle exposes its dynamic model kind (`item_type`, a `TypeId`) and an
optional stable entry identifier (`entry_id`). -/
structure ProjectItemHandle where
  item_type : TypeId
  entry_id : Option EntryId
  deriving DecidableEq, Repr

/-- A reference-counted view handle (`ViewHandle<T>` erased): the dynamic view
type `TypeId::of::<T>()`, the identity assigned by `cx.add_view`, and the
project-item model the view wraps (`T::project_item`). A view whose type was
never registered as a `ProjectPaneItem` simply has no converter entry, so its
`model` field is never observed through `to_project_pane_item`. -/
structure ViewHandle where
  view_type : TypeId
  view_id : Nat
  model : ProjectItemHandle
  deriving DecidableEq, Repr

/-- One entry of the `ProjectPaneItemBuilders` global: the closure registered
under key `TypeId::of::<T::Model>()` downcasts the incoming model handle to
`T::Model` (`model_downcast`) and constructs a view of type `T`
(`view_type`). -/
structure BuilderEntry where
  model_downcast : TypeId
  view_type : TypeId
  deriving DecidableEq, Repr

/-- The global application state read by the core: the two registry tables
(`ProjectPaneItemBuilders`, keyed by model `TypeId`, and
`ProjectPaneItemHandleConverters`, keyed by view `TypeId` and recording the
type the converter downcasts to) and the counter the view context uses to
assign fresh view identities. `HashMap::insert` overwrites, which an
association list models by prepending and looking up the first hit. -/
structure Cx where
  builders : List (TypeId × BuilderEntry)
  converters : List (TypeId × TypeId)
  next_view_id : Nat
  deriving DecidableEq, Repr

/-- Embeds `HashMap::get` on the association-list model of the registry tables:
first entry with the given key wins, so a prepended insert overwrites. -/
def lookupKey {β : Type} (k : TypeId) : List (TypeId × β) → Option β
  | [] => none
  | (k', v) :: rest => if k' = k then some v else lookupKey k rest

/-- Embeds `ModelHandle::to_any().downcast::<M>()`: succeeds exactly when the
handle's dynamic model kind is the target type. -/
def downcastModel (target : TypeId) (m : ProjectItemHandle) : Option ProjectItemHandle :=
  if m.item_type = target then some m else none

/-- Embeds `AnyViewHandle::downcast::<T>()`: succeeds exactly when the handle's
dynamic view type is the target type. -/
def downcastView (target : TypeId) (v : ViewHandle) : Option ViewHandle :=
  if v.view_type = target then some v else none

/-- Embeds `init`: both registry globals start empty; the view-id counter starts at
zero. -/
def Cx.init : Cx :=
  { builders := [], converters := [], next_view_id := 0 }

/-- Embeds `register_project_pane_item::<T>`: inserts, under key
`TypeId::of::<T::Model>()`, a builder that downcasts its model argument to
`T::Model` and constructs a view of type `T`; and, under key
`TypeId::of::<T>()`, a converter that downcasts an opaque view handle to `T`.
`model_ty` stands for `TypeId::of::<T::Model>()` and `view_ty` for
`TypeId::of::<T>()`. -/
def register_project_pane_item (model_ty view_ty : TypeId) (cx : Cx) : Cx :=
  { cx with
    builders := (model_ty, ⟨model_ty, view_ty⟩) :: cx.builders,
    converters := (view_ty, view_ty) :: cx.converters }

/-- The `anyhow!` message produced when no builder is registered for the
model's kind — the spec's `UnregisteredKind` error. -/
def unregisteredKindMsg : String := "no ProjectPaneItem registered for model type"

/-- Embeds `build_project_pane_item`: looks up the builder for the model's dynamic
kind (recoverable failure, inner `.error`, when absent), then runs the
registered closure: downcast the model (`.unwrap()`, a panic — outer `.error`
— when the downcast fails) and add a view of the registered type with a fresh
view id. -/
def build_project_pane_item (project_item : ProjectItemHandle) (cx : Cx) :
    Except String (Except String ViewHandle × Cx) :=
  match lookupKey project_item.item_type cx.builders with
  | none => .ok (.error unregisteredKindMsg, cx)
  | some b =>
    match downcastModel b.model_downcast project_item with
    | none => .error "called Option::unwrap on a None value"
    | some m =>
      .ok (.ok ⟨b.view_type, cx.next_view_id, m⟩,
           { cx with next_view_id := cx.next_view_id + 1 })

/-- Embeds `PaneItemHandle::to_project_pane_item`: look up the converter for the
view's dynamic type (`.ok none` when absent — the item is not a project pane
item), then run it; the converter's `downcast::<T>().unwrap()` panics (outer
`.error`) when the downcast fails. -/
def ViewHandle.to_project_pane_item (v : ViewHandle) (cx : Cx) :
    Except String (Option ViewHandle) :=
  match lookupKey v.view_type cx.converters with
  | none => .ok none
  | some target =>
    match downcastView target v with
    | none => .error "called Option::unwrap on a None value"
    | some w => .ok (some w)

/-- Embeds `Pane`: ordered items plus the active-item cursor. -/
structure Pane where
  id : PaneId
  items : List ViewHandle
  active_item_index : Nat
  deriving DecidableEq, Repr

/-- Embeds `Pane::new`. -/
def Pane.new (id : PaneId) : Pane :=
  { id := id, items := [], active_item_index := 0 }

/-- Embeds `Pane::add_item`: push at the end (the `cx.notify()` call has no effect on
the modelled state). -/
def Pane.add_item (p : Pane) (item : ViewHandle) : Pane :=
  { p with items := p.items ++ [item] }

/-- The `find_map` scan inside `Pane::activate_project_item`: walk the items
left to right carrying the enumeration index; skip items that are not project
pane items or whose model has no entry id; return the first index/item pair
whose entry id equals the candidate's. A panic inside
`to_project_pane_item` propagates. -/
def findMatch (cx : Cx) (e : EntryId) : List ViewHandle → Nat →
    Except String (Option (Nat × ViewHandle))
  | [], _ => .ok none
  | v :: rest, ix =>
    match v.to_project_pane_item cx with
    | .error msg => .error msg
    | .ok none => findMatch cx e rest (ix + 1)
    | .ok (some w) =>
      match w.model.entry_id with
      | none => findMatch cx e rest (ix + 1)
      | some eid =>
        if eid = e then .ok (some (ix, w)) else findMatch cx e rest (ix + 1)

/-- Embeds `Pane::activate_project_item`: if the candidate model has no entry id,
return `None` without mutating; otherwise scan for the first stored item
wrapping a model with the same entry id; on a hit set `active_item_index` to
its position and return it; on a miss return `None` without mutating. -/
def Pane.activate_project_item (p : Pane) (new_item : ProjectItemHandle) (cx : Cx) :
    Except String (Option ViewHandle × Pane) :=
  match new_item.entry_id with
  | none => .ok (none, p)
  | some e =>
    match findMatch cx e p.items 0 with
    | .error msg => .error msg
    | .ok none => .ok (none, p)
    | .ok (some (ix, w)) => .ok (some w, { p with active_item_index := ix })

/-- Embeds `Pane::close_active_item`: `false` on an empty pane; otherwise
`splice(active_item_index..active_item_index + 1, [])`, which panics (outer
`.error`) when the range end exceeds the vector length, and removes exactly
the element at `active_item_index` otherwise. -/
def Pane.close_active_item (p : Pane) : Except String (Bool × Pane) :=
  if p.items.isEmpty then .ok (false, p)
  else if p.active_item_index + 1 ≤ p.items.length then
    .ok (true,
      { p with items :=
          p.items.take p.active_item_index ++ p.items.drop (p.active_item_index + 1) })
  else .error "splice range end out of bounds"

/-- Embeds `SplitOrientation`. -/
inductive SplitOrientation where
  | horizontal
  | vertical

mutual
/-- Embeds `PaneTree`: a leaf pane or a split with ordered children. -/
inductive PaneTree where
  | split (orientation : SplitOrientation) (children : PaneTreeList)
  | pane (p : Pane)
/-- The `Vec<PaneTree>` of a split's children (spelled out so that recursion
over the tree stays structural). -/
inductive PaneTreeList where
  | nil
  | cons (head : PaneTree) (tail : PaneTreeList)
end

/-- Embeds `PaneTree::new`: a single root pane with id 0. -/
def PaneTree.new : PaneTree := .pane (Pane.new 0)

mutual
/-- Embeds `PaneTree::pane_mut` (the lookup part of the `&mut Pane` search):
depth-first, first pane with the given id. -/
def PaneTree.pane_mut : PaneTree → PaneId → Option Pane
  | .pane p, i => if p.id = i then some p else none
  | .split _ cs, i => PaneTreeList.pane_mut cs i
/-- Search of a split's children in order. -/
def PaneTreeList.pane_mut : PaneTreeList → PaneId → Option Pane
  | .nil, _ => none
  | .cons t ts, i =>
    match t.pane_mut i with
    | some p => some p
    | none => PaneTreeList.pane_mut ts i
end

mutual
/-- Writing through the `&mut Pane` returned by `PaneTree::pane_mut`: apply
`f` to the first pane (depth-first) with the given id, leave everything else
in place. -/
def PaneTree.modify_pane : PaneTree → PaneId → (Pane → Pane) → PaneTree
  | .pane p, i, f => if p.id = i then .pane (f p) else .pane p
  | .split o cs, i, f => .split o (PaneTreeList.modify_pane cs i f)
/-- Modify the first child subtree that contains the pane. -/
def PaneTreeList.modify_pane : PaneTreeList → PaneId → (Pane → Pane) → PaneTreeList
  | .nil, _, _ => .nil
  | .cons t ts, i, f =>
    match t.pane_mut i with
    | some _ => .cons (t.modify_pane i f) ts
    | none => .cons t (PaneTreeList.modify_pane ts i f)
end

/-- Embeds `Workspace` (the backing `project : ModelHandle<Project>` field belongs to
the external project collaborator and carries no state the modelled
operations read). -/
structure Workspace where
  pane_tree : PaneTree
  next_pane_id : PaneId
  active_pane_id : PaneId

/-- Embeds `Workspace::new`. -/
def Workspace.new : Workspace :=
  { pane_tree := PaneTree.new, next_pane_id := 1, active_pane_id := 0 }

/-- Writing the mutated active pane back into the tree (the effect of the
`&mut Pane` returned by `Workspace::active_pane_mut`). -/
def Workspace.setActivePane (ws : Workspace) (p : Pane) : Workspace :=
  { ws with pane_tree := ws.pane_tree.modify_pane ws.active_pane_id fun _ => p }

/-- The post-await continuation of `Workspace::open` (the `project.open` call
that resolves a path into `project_item` belongs to the external project
collaborator, so the resolved model handle is the input here):
`active_pane_mut` (whose `.unwrap()` panics when the active pane id resolves
to no pane), the dedup check via `activate_project_item`, and on a miss
`build_project_pane_item` followed by `add_item`. The inner
`Except String ViewHandle` is the `anyhow::Result` returned to the caller;
the outer layer is a panic. -/
def Workspace.open' (ws : Workspace) (m : ProjectItemHandle) (cx : Cx) :
    Except String (Except String ViewHandle × Workspace × Cx) :=
  match ws.pane_tree.pane_mut ws.active_pane_id with
  | none => .error "called Option::unwrap on a None value"
  | some pane =>
    match pane.activate_project_item m cx with
    | .error msg => .error msg
    | .ok (some existing, pane') => .ok (.ok existing, ws.setActivePane pane', cx)
    | .ok (none, pane') =>
      match build_project_pane_item m cx with
      | .error msg => .error msg
      | .ok (.error e, cx') => .ok (.error e, ws.setActivePane pane', cx')
      | .ok (.ok v, cx') => .ok (.ok v, ws.setActivePane (pane'.add_item v), cx')

/-- Embeds `Workspace::close_active_pane_item`: delegate to the active pane's
`close_active_item`; the returned `Bool` is `false` exactly when the pane was
empty and the action is propagated (`cx.propagate_action()`). -/
def Workspace.close_active_pane_item (ws : Workspace) :
    Except String (Bool × Workspace) :=
  match ws.pane_tree.pane_mut ws.active_pane_id with
  | none => .error "called Option::unwrap on a None value"
  | some pane =>
    match pane.close_active_item with
    | .error msg => .error msg
    | .ok (closed, pane') => .ok (closed, ws.setActivePane pane')

/-- Number of items in the active pane (0 when the active pane id resolves to
no pane). -/
def Workspace.activeItemCount (ws : Workspace) : Nat :=
  match ws.pane_tree.pane_mut ws.active_pane_id with
  | none => 0
  | some p => p.items.length

/-- The core operations reachable from a `Workspace` (the quantification
space of the spec's no-panic property): the open workflow on a resolved
model, the pane-level `activate_project_item` / `add_item` /
`close_active_item` on the active pane, and the `CloseActivePaneItem`
action. -/
inductive Op where
  | openOp (m : ProjectItemHandle)
  | activateOp (m : ProjectItemHandle)
  | addOp (v : ViewHandle)
  | closeItemOp
  | closeActivePaneItemOp

/-- One core operation on the full state; `.error` is a panic. -/
def step (st : Workspace × Cx) : Op → Except String (Workspace × Cx)
  | .openOp m =>
    match st.1.open' m st.2 with
    | .error msg => .error msg
    | .ok (_, ws, cx) => .ok (ws, cx)
  | .activateOp m =>
    match st.1.pane_tree.pane_mut st.1.active_pane_id with
    | none => .error "called Option::unwrap on a None value"
    | some p =>
      match p.activate_project_item m st.2 with
      | .error msg => .error msg
      | .ok (_, p') => .ok (st.1.setActivePane p', st.2)
  | .addOp v =>
    match st.1.pane_tree.pane_mut st.1.active_pane_id with
    | none => .error "called Option::unwrap on a None value"
    | some p => .ok (st.1.setActivePane (p.add_item v), st.2)
  | .closeItemOp =>
    match st.1.pane_tree.pane_mut st.1.active_pane_id with
    | none => .error "called Option::unwrap on a None value"
    | some p =>
      match p.close_active_item with
      | .error msg => .error msg
      | .ok (_, p') => .ok (st.1.setActivePane p', st.2)
  | .closeActivePaneItemOp =>
    match st.1.close_active_pane_item with
    | .error msg => .error msg
    | .ok (_, ws) => .ok (ws, st.2)

/-- Run a sequence of core operations; a panic anywhere aborts the run. -/
def runOps : List Op → Workspace × Cx → Except String (Workspace × Cx)
  | [], st => .ok st
  | op :: ops, st =>
    match step st op with
    | .error msg => .error msg
    | .ok st' => runOps ops st'

/-- The registry shape every state built from `init` by
`register_project_pane_item` calls has: each converter entry downcasts to
exactly its own key, and each builder entry downcasts the model to exactly its
own key and constructs views of a type that has a converter. This is the
formal content of the tables being "keyed by the exact dynamic type they later
downcast to". -/
def Cx.wf (cx : Cx) : Prop :=
  (∀ kv ∈ cx.converters, kv.2 = kv.1) ∧
  (∀ kb ∈ cx.builders,
    kb.2.model_downcast = kb.1 ∧ kb.2.view_type ∈ cx.converters.map Prod.fst)

instance (cx : Cx) : Decidable cx.wf := by
  unfold Cx.wf; infer_instance

/-- The dedup predicate of the scan, at the specification level: the stored
item is a project pane item whose model's entry id equals the candidate's. -/
def matchesEntryB (cx : Cx) (e : EntryId) (v : ViewHandle) : Bool :=
  match v.to_project_pane_item cx with
  | .ok (some w) => w.model.entry_id == some e
  | _ => false

/-- The pane states reachable from `Pane::new` by the pane-level operations
(with panics excluded by construction: a panicking step produces no state). -/
inductive PaneReachable (cx : Cx) : Pane → Prop where
  | new (id : PaneId) : PaneReachable cx (Pane.new id)
  | add {p : Pane} (v : ViewHandle) :
      PaneReachable cx p → PaneReachable cx (p.add_item v)
  | activate {p p' : Pane} {m : ProjectItemHandle} {r : Option ViewHandle} :
      PaneReachable cx p → p.activate_project_item m cx = .ok (r, p') →
      PaneReachable cx p'
  | close {p p' : Pane} {b : Bool} :
      PaneReachable cx p → p.close_active_item = .ok (b, p') →
      PaneReachable cx p'

/-- Concrete fixture: a registry with one registered project pane item kind
(model kind 0, view kind 10). -/
def cx0 : Cx := register_project_pane_item 0 10 Cx.init

/-- Fixture model handle: kind 0, entry id 1 (the spec scenario's `E1`). -/
def m1 : ProjectItemHandle := ⟨0, some 1⟩

/-- Fixture model handle: kind 0, entry id 2 (the spec scenario's `E2`). -/
def m2 : ProjectItemHandle := ⟨0, some 2⟩

/-- The view the registry builds for `m1` when the counter is 0 (`I1`). -/
def v1 : ViewHandle := ⟨10, 0, m1⟩

/-- The view the registry builds for `m2` when the counter is 1 (`I2`). -/
def v2 : ViewHandle := ⟨10, 1, m2⟩

/-- The workspace after one `open` of `m1` from a fresh workspace. -/
def wsA : Workspace := ⟨.pane ⟨0, [v1], 0⟩, 1, 0⟩

/-- The registry state after one `build` from `cx0`. -/
def cxA : Cx := { cx0 with next_view_id := 1 }

theorem Cx.wf_init : Cx.init.wf := by
  constructor <;> intro kv hkv <;> simp [Cx.init] at hkv

theorem Cx.wf_register (cx : Cx) (h : cx.wf) (mt vt : TypeId) :
    (register_project_pane_item mt vt cx).wf := by
  obtain ⟨hc, hb⟩ := h
  constructor
  · intro kv hkv
    simp only [register_project_pane_item, List.mem_cons] at hkv
    rcases hkv with rfl | hkv
    · rfl
    · exact hc kv hkv
  · intro kb hkb
    simp only [register_project_pane_item, List.mem_cons] at hkb
    rcases hkb with rfl | hkb
    · exact ⟨rfl, by simp [register_project_pane_item]⟩
    · refine ⟨(hb kb hkb).1, ?_⟩
      simp only [register_project_pane_item, List.map_cons, List.mem_cons]
      exact Or.inr (hb kb hkb).2

theorem lookupKey_mem {β : Type} {k : TypeId} {v : β} :
    ∀ {l : List (TypeId × β)}, lookupKey k l = some v → (k, v) ∈ l := by
  intro l
  induction l with
  | nil => intro h; simp [lookupKey] at h
  | cons kv rest ih =>
    intro h
    obtain ⟨k', v'⟩ := kv
    simp only [lookupKey] at h
    split at h
    · rename_i heq
      cases h
      exact heq ▸ List.mem_cons_self _ _
    · exact List.mem_cons_of_mem _ (ih h)

theorem lookupKey_eq_none {β : Type} {k : TypeId} :
    ∀ {l : List (TypeId × β)}, lookupKey k l = none ↔ k ∉ l.map Prod.fst := by
  intro l
  induction l with
  | nil => simp [lookupKey]
  | cons kv rest ih =>
    obtain ⟨k', v'⟩ := kv
    simp only [lookupKey, List.map_cons, List.mem_cons]
    split
    · rename_i heq
      subst heq
      simp
    · rename_i hne
      simp only [ih]
      constructor
      · rintro h (rfl | hmem)
        · exact hne rfl
        · exact h hmem
      · intro h hmem
        exact h (Or.inr hmem)

theorem lookupKey_isSome {β : Type} {k : TypeId} {l : List (TypeId × β)}
    (h : k ∈ l.map Prod.fst) : ∃ v, lookupKey k l = some v := by
  cases hl : lookupKey k l with
  | none => exact absurd h (lookupKey_eq_none.mp hl)
  | some v => exact ⟨v, rfl⟩

theorem lookupKey_self {l : List (TypeId × TypeId)} {k : TypeId}
    (hc : ∀ kv ∈ l, kv.2 = kv.1) (hk : k ∈ l.map Prod.fst) :
    lookupKey k l = some k := by
  obtain ⟨v, hv⟩ := lookupKey_isSome hk
  have := hc _ (lookupKey_mem hv)
  simp only at this
  rw [hv, this]

/-- Registration puts the model kind among the builder keys. -/
theorem register_mem_builders (cx : Cx) (mt vt : TypeId) :
    mt ∈ (register_project_pane_item mt vt cx).builders.map Prod.fst := by
  simp [register_project_pane_item]

/-- Under a well-formed registry, `build` on a registered model kind succeeds:
the registered closure's model downcast cannot fail, and a fresh view of the
registered view type wrapping exactly the given model is produced. -/
theorem build_success {cx : Cx} (hwf : cx.wf) {m : ProjectItemHandle}
    (hreg : m.item_type ∈ cx.builders.map Prod.fst) :
    ∃ vt, vt ∈ cx.converters.map Prod.fst ∧
      build_project_pane_item m cx =
        .ok (.ok ⟨vt, cx.next_view_id, m⟩,
             { cx with next_view_id := cx.next_view_id + 1 }) := by
  obtain ⟨b, hb⟩ := lookupKey_isSome hreg
  obtain ⟨hdc, hvt⟩ := hwf.2 _ (lookupKey_mem hb)
  have hdc' : b.model_downcast = m.item_type := hdc
  refine ⟨b.view_type, hvt, ?_⟩
  simp [build_project_pane_item, hb, hdc', downcastModel]

/-- Lemma: `build` on an unregistered model kind fails with the `UnregisteredKind`
error and leaves the registry state untouched. -/
theorem build_fail {cx : Cx} {m : ProjectItemHandle}
    (hreg : m.item_type ∉ cx.builders.map Prod.fst) :
    build_project_pane_item m cx = .ok (.error unregisteredKindMsg, cx) := by
  simp only [build_project_pane_item, lookupKey_eq_none.mpr hreg]

/-- Under a well-formed registry, converting a view whose type is registered
succeeds and returns the view itself (the converter's downcast cannot
fail). -/
theorem tpp_of_mem {cx : Cx} (hwf : cx.wf) {v : ViewHandle}
    (h : v.view_type ∈ cx.converters.map Prod.fst) :
    v.to_project_pane_item cx = .ok (some v) := by
  simp [ViewHandle.to_project_pane_item, lookupKey_self hwf.1 h, downcastView]

/-- Converting a view whose type has no converter yields `none` (it is not a
project pane item). -/
theorem tpp_of_not_mem {cx : Cx} {v : ViewHandle}
    (h : v.view_type ∉ cx.converters.map Prod.fst) :
    v.to_project_pane_item cx = .ok none := by
  simp only [ViewHandle.to_project_pane_item, lookupKey_eq_none.mpr h]

/-- Under a well-formed registry, `to_project_pane_item` never panics. -/
theorem tpp_ok {cx : Cx} (hwf : cx.wf) (v : ViewHandle) :
    ∃ o, v.to_project_pane_item cx = .ok o := by
  by_cases h : v.view_type ∈ cx.converters.map Prod.fst
  · exact ⟨some v, tpp_of_mem hwf h⟩
  · exact ⟨none, tpp_of_not_mem h⟩

/-- A successful conversion returns the view itself. -/
theorem tpp_some_eq {cx : Cx} {v w : ViewHandle}
    (h : v.to_project_pane_item cx = .ok (some w)) : w = v := by
  unfold ViewHandle.to_project_pane_item downcastView at h
  cases hl : lookupKey v.view_type cx.converters with
  | none => rw [hl] at h; cases h
  | some target =>
    rw [hl] at h
    by_cases ht : v.view_type = target
    · simp only [if_pos ht] at h
      cases h
      rfl
    · simp only [if_neg ht] at h
      cases h

/-- Lemma: `to_project_pane_item` reads only the converter table. -/
theorem tpp_congr {cx cx' : Cx} (h : cx.converters = cx'.converters)
    (v : ViewHandle) : v.to_project_pane_item cx = v.to_project_pane_item cx' := by
  simp only [ViewHandle.to_project_pane_item, h]

/-- Under a well-formed registry the scan never panics. -/
theorem findMatch_ok {cx : Cx} (hwf : cx.wf) (e : EntryId)
    (xs : List ViewHandle) : ∀ i, ∃ r, findMatch cx e xs i = .ok r := by
  induction xs with
  | nil => exact fun i => ⟨none, rfl⟩
  | cons v rest ih =>
    intro i
    obtain ⟨o, ho⟩ := tpp_ok hwf v
    cases o with
    | none =>
      obtain ⟨r, hr⟩ := ih (i + 1)
      exact ⟨r, by simp [findMatch, ho, hr]⟩
    | some w =>
      cases hw : w.model.entry_id with
      | none =>
        obtain ⟨r, hr⟩ := ih (i + 1)
        exact ⟨r, by simp [findMatch, ho, hw, hr]⟩
      | some eid =>
        by_cases he : eid = e
        · exact ⟨some (i, w), by simp [findMatch, ho, hw, he]⟩
        · obtain ⟨r, hr⟩ := ih (i + 1)
          exact ⟨r, by simp [findMatch, ho, hw, he, hr]⟩

/-- A hit of the scan lies within the scanned range. -/
theorem findMatch_some_lt {cx : Cx} {e : EntryId} :
    ∀ {xs : List ViewHandle} {i ix : Nat} {w : ViewHandle},
      findMatch cx e xs i = .ok (some (ix, w)) → ix < i + xs.length := by
  intro xs
  induction xs with
  | nil =>
    intro i ix w h
    simp [findMatch] at h
  | cons v rest ih =>
    intro i ix w h
    unfold findMatch at h
    split at h
    · cases h
    · have := ih h
      simp only [List.length_cons]
      omega
    · split at h
      · have := ih h
        simp only [List.length_cons]
        omega
      · split at h
        · cases h
          simp only [List.length_cons]
          omega
        · have := ih h
          simp only [List.length_cons]
          omega

/-- The dedup predicate holds exactly when the item converts to itself as a
project pane item and its model's entry id is the candidate's. -/
theorem matchesEntryB_true_iff {cx : Cx} {e : EntryId} {v : ViewHandle} :
    matchesEntryB cx e v = true ↔
      v.to_project_pane_item cx = .ok (some v) ∧ v.model.entry_id = some e := by
  unfold matchesEntryB
  cases htpp : v.to_project_pane_item cx with
  | error msg => simp
  | ok o =>
    cases o with
    | none => simp
    | some w =>
      cases tpp_some_eq htpp
      simp

/-- If the scan misses on a prefix, scanning the concatenation continues into
the suffix with the enumeration index advanced past the prefix. -/
theorem findMatch_append {cx : Cx} {e : EntryId} :
    ∀ {xs : List ViewHandle} {i : Nat},
      findMatch cx e xs i = .ok none → ∀ ys,
        findMatch cx e (xs ++ ys) i = findMatch cx e ys (i + xs.length) := by
  intro xs
  induction xs with
  | nil =>
    intro i _ ys
    simp only [List.nil_append, List.length_nil, Nat.add_zero]
  | cons v rest ih =>
    intro i h ys
    have harith : i + 1 + rest.length = i + (v :: rest).length := by
      simp only [List.length_cons]
      omega
    cases htpp : v.to_project_pane_item cx with
    | error msg =>
      simp only [findMatch, htpp] at h
      cases h
    | ok o =>
      cases o with
      | none =>
        simp only [findMatch, htpp] at h
        simp only [List.cons_append, findMatch, htpp]
        exact (ih h ys).trans (by rw [harith])
      | some w =>
        cases hw : w.model.entry_id with
        | none =>
          simp only [findMatch, htpp, hw] at h
          simp only [List.cons_append, findMatch, htpp, hw]
          exact (ih h ys).trans (by rw [harith])
        | some eid =>
          by_cases he : eid = e
          · simp only [findMatch, htpp, hw, if_pos he] at h
            cases h
          · simp only [findMatch, htpp, hw, if_neg he] at h
            simp only [List.cons_append, findMatch, htpp, hw, if_neg he]
            exact (ih h ys).trans (by rw [harith])

/-- The scan reads the registry only through the converter table. -/
theorem findMatch_congr {cx cx' : Cx} (h : cx.converters = cx'.converters)
    (e : EntryId) (xs : List ViewHandle) :
    ∀ i, findMatch cx e xs i = findMatch cx' e xs i := by
  induction xs with
  | nil => intro i; rfl
  | cons v rest ih =>
    intro i
    unfold findMatch
    rw [tpp_congr h v, ih (i + 1)]

/-- If every scanned item fails the dedup predicate, the scan misses (without
panicking, given a well-formed registry). -/
theorem findMatch_none_of_all {cx : Cx} (hwf : cx.wf) {e : EntryId} :
    ∀ {xs : List ViewHandle}, (∀ v ∈ xs, matchesEntryB cx e v = false) →
      ∀ i, findMatch cx e xs i = .ok none := by
  intro xs
  induction xs with
  | nil => intro _ i; rfl
  | cons v rest ih =>
    intro hall i
    have hv := hall v (List.mem_cons_self _ _)
    have hrest : ∀ u ∈ rest, matchesEntryB cx e u = false :=
      fun u hu => hall u (List.mem_cons_of_mem _ hu)
    obtain ⟨o, ho⟩ := tpp_ok hwf v
    cases o with
    | none => simp [findMatch, ho, ih hrest (i + 1)]
    | some w =>
      cases tpp_some_eq ho
      cases hw : v.model.entry_id with
      | none => simp [findMatch, ho, hw, ih hrest (i + 1)]
      | some eid =>
        have hne : eid ≠ e := by
          intro heq
          have hmt : matchesEntryB cx e v = true :=
            matchesEntryB_true_iff.mpr ⟨ho, by rw [hw, heq]⟩
          rw [hv] at hmt
          cases hmt
        simp [findMatch, ho, hw, hne, ih hrest (i + 1)]

/-- If the item at position `ix` satisfies the dedup predicate and every
earlier item fails it, the scan returns exactly that item at enumeration index
`i + ix`. -/
theorem findMatch_first {cx : Cx} (hwf : cx.wf) {e : EntryId} :
    ∀ {xs : List ViewHandle} {ix : Nat} {v : ViewHandle} (i : Nat),
      xs[ix]? = some v → matchesEntryB cx e v = true →
      (∀ j w, j < ix → xs[j]? = some w → matchesEntryB cx e w = false) →
      findMatch cx e xs i = .ok (some (i + ix, v)) := by
  intro xs
  induction xs with
  | nil =>
    intro ix v i hget
    simp at hget
  | cons a rest ih =>
    intro ix v i hget hmatch hprev
    cases ix with
    | zero =>
      rw [List.getElem?_cons_zero] at hget
      have hva : a = v := by injection hget
      subst hva
      obtain ⟨htpp, hentry⟩ := matchesEntryB_true_iff.mp hmatch
      simp [findMatch, htpp, hentry]
    | succ k =>
      have h0 : matchesEntryB cx e a = false :=
        hprev 0 a (Nat.succ_pos k) List.getElem?_cons_zero
      have hget' : rest[k]? = some v := by
        simpa using hget
      have hprev' : ∀ j w, j < k → rest[j]? = some w → matchesEntryB cx e w = false := by
        intro j w hj hjget
        refine hprev (j + 1) w (by omega) ?_
        simpa using hjget
      have hrec := ih (i + 1) hget' hmatch hprev'
      obtain ⟨o, ho⟩ := tpp_ok hwf a
      have harith : i + 1 + k = i + (k + 1) := by omega
      cases o with
      | none =>
        simp only [findMatch, ho, hrec]
        rw [harith]
      | some w =>
        cases tpp_some_eq ho
        cases hw : a.model.entry_id with
        | none =>
          simp only [findMatch, ho, hw, hrec]
          rw [harith]
        | some eid =>
          have hne : eid ≠ e := by
            intro heq
            have hmt : matchesEntryB cx e a = true :=
              matchesEntryB_true_iff.mpr ⟨ho, by rw [hw, heq]⟩
            rw [h0] at hmt
            cases hmt
          simp only [findMatch, ho, hw, if_neg hne, hrec]
          rw [harith]

/-- Lemma: `activate_project_item` never changes the pane's id or its item list. -/
theorem activate_state {p : Pane} {m : ProjectItemHandle} {cx : Cx}
    {r : Option ViewHandle} {p' : Pane}
    (h : p.activate_project_item m cx = .ok (r, p')) :
    p'.id = p.id ∧ p'.items = p.items := by
  unfold Pane.activate_project_item at h
  split at h
  · cases h
    exact ⟨rfl, rfl⟩
  · split at h
    · cases h
    · cases h
      exact ⟨rfl, rfl⟩
    · cases h
      exact ⟨rfl, rfl⟩

/-- A missed activation returns the pane untouched. -/
theorem activate_none_eq {p : Pane} {m : ProjectItemHandle} {cx : Cx} {p' : Pane}
    (h : p.activate_project_item m cx = .ok (none, p')) : p' = p := by
  unfold Pane.activate_project_item at h
  split at h
  · cases h
    rfl
  · split at h
    · cases h
    · cases h
      rfl
    · cases h

/-- Activation of a model without an entry id is a no-op. -/
theorem activate_entry_none {p : Pane} {m : ProjectItemHandle} {cx : Cx}
    (hm : m.entry_id = none) : p.activate_project_item m cx = .ok (none, p) := by
  simp [Pane.activate_project_item, hm]

/-- Forward computation of activation from a missed scan. -/
theorem activate_of_findMatch_none {p : Pane} {m : ProjectItemHandle} {cx : Cx}
    {e : EntryId} (hm : m.entry_id = some e)
    (hf : findMatch cx e p.items 0 = .ok none) :
    p.activate_project_item m cx = .ok (none, p) := by
  simp [Pane.activate_project_item, hm, hf]

/-- A panic of the scan propagates out of activation. -/
theorem activate_of_findMatch_error {p : Pane} {m : ProjectItemHandle} {cx : Cx}
    {e : EntryId} {msg : String} (hm : m.entry_id = some e)
    (hf : findMatch cx e p.items 0 = .error msg) :
    p.activate_project_item m cx = .error msg := by
  simp [Pane.activate_project_item, hm, hf]

/-- Forward computation of activation from a scan hit. -/
theorem activate_of_findMatch_some {p : Pane} {m : ProjectItemHandle} {cx : Cx}
    {e : EntryId} {ix : Nat} {v : ViewHandle} (hm : m.entry_id = some e)
    (hf : findMatch cx e p.items 0 = .ok (some (ix, v))) :
    p.activate_project_item m cx = .ok (some v, { p with active_item_index := ix }) := by
  simp [Pane.activate_project_item, hm, hf]

/-- A missed activation on a model with a defined entry id means the scan
missed. -/
theorem activate_none_findMatch {p : Pane} {m : ProjectItemHandle} {cx : Cx}
    {p' : Pane} {e : EntryId} (h : p.activate_project_item m cx = .ok (none, p'))
    (he : m.entry_id = some e) : findMatch cx e p.items 0 = .ok none := by
  cases hf : findMatch cx e p.items 0 with
  | error msg => rw [activate_of_findMatch_error he hf] at h; cases h
  | ok o =>
    cases o with
    | none => rfl
    | some iw =>
      obtain ⟨ix, w⟩ := iw
      rw [activate_of_findMatch_some he hf] at h
      cases h

/-- Inversion of a successful activation: the candidate has an entry id, the
scan hit at some index, and the only mutation is setting the active index to
that hit. -/
theorem activate_some_inv {p : Pane} {m : ProjectItemHandle} {cx : Cx}
    {v : ViewHandle} {p' : Pane}
    (h : p.activate_project_item m cx = .ok (some v, p')) :
    ∃ e ix, m.entry_id = some e ∧ findMatch cx e p.items 0 = .ok (some (ix, v)) ∧
      p' = { p with active_item_index := ix } := by
  cases hm : m.entry_id with
  | none => rw [activate_entry_none hm] at h; cases h
  | some e =>
    cases hf : findMatch cx e p.items 0 with
    | error msg => rw [activate_of_findMatch_error hm hf] at h; cases h
    | ok o =>
      cases o with
      | none => rw [activate_of_findMatch_none hm hf] at h; cases h
      | some iw =>
        obtain ⟨ix, w⟩ := iw
        rw [activate_of_findMatch_some hm hf] at h
        cases h
        exact ⟨e, ix, rfl, hf, rfl⟩

/-- Closing on a pane whose active index is in range removes exactly the
element at the active index. -/
theorem close_nonempty {p : Pane} (h : p.active_item_index < p.items.length) :
    p.close_active_item =
      .ok (true,
        { p with items :=
            p.items.take p.active_item_index ++
              p.items.drop (p.active_item_index + 1) }) := by
  have hne : p.items.isEmpty = false := by
    cases hi : p.items with
    | nil => rw [hi] at h; simp at h
    | cons a l => simp
  simp only [Pane.close_active_item, hne, Bool.false_eq_true, if_false]
  rw [if_pos (by omega)]

/-- Closing on an empty pane reports no item to close and changes nothing. -/
theorem close_empty {p : Pane} (h : p.items = []) :
    p.close_active_item = .ok (false, p) := by
  simp [Pane.close_active_item, h]

/-- The out-of-range splice: a non-empty pane whose active index is at or
past the end panics. -/
theorem close_panic {p : Pane} (h1 : p.items ≠ [])
    (h2 : p.items.length ≤ p.active_item_index) :
    p.close_active_item = .error "splice range end out of bounds" := by
  have hne : p.items.isEmpty = false := by
    cases hi : p.items with
    | nil => exact absurd hi h1
    | cons a l => simp
  simp only [Pane.close_active_item, hne, Bool.false_eq_true, if_false]
  rw [if_neg (by omega)]

/-- Length of the item list after a successful in-range close. -/
theorem close_items_length {p : Pane} (h : p.active_item_index < p.items.length) :
    (p.items.take p.active_item_index ++
      p.items.drop (p.active_item_index + 1)).length = p.items.length - 1 := by
  rw [List.length_append, List.length_take, List.length_drop]
  omega

/-- The invariant every reachable pane satisfies: the active index never
exceeds the length (it can equal it, after closing the last-positioned item),
and an empty reachable pane always has active index 0. -/
theorem reachable_inv {cx : Cx} {p : Pane} (h : PaneReachable cx p) :
    p.active_item_index ≤ p.items.length ∧
      (p.items = [] → p.active_item_index = 0) := by
  induction h with
  | new id => exact ⟨Nat.le_refl 0, fun _ => rfl⟩
  | add v hp ih =>
    refine ⟨?_, ?_⟩
    · simp only [Pane.add_item, List.length_append, List.length_cons, List.length_nil]
      omega
    · intro happ
      simp only [Pane.add_item] at happ
      exact absurd happ (by simp)
  | activate hp hstep ih =>
    rename_i p₀ p' m r
    obtain ⟨hid, hitems⟩ := activate_state hstep
    cases r with
    | none =>
      cases activate_none_eq hstep
      exact ih
    | some v =>
      obtain ⟨e, ix, hm, hf, hp'⟩ := activate_some_inv hstep
      subst hp'
      have hix := findMatch_some_lt hf
      simp only [Nat.zero_add] at hix
      refine ⟨Nat.le_of_lt hix, ?_⟩
      intro h0
      rw [h0] at hix
      simp at hix
  | close hp hstep ih =>
    rename_i p₀ p' b
    by_cases hemp : p₀.items = []
    · rw [close_empty hemp] at hstep
      cases hstep
      exact ih
    · by_cases hlt : p₀.active_item_index < p₀.items.length
      · rw [close_nonempty hlt] at hstep
        cases hstep
        have hc := close_items_length hlt
        refine ⟨?_, ?_⟩
        · dsimp only
          rw [hc]
          omega
        · intro h0
          dsimp only at h0 ⊢
          rw [h0] at hc
          simp only [List.length_nil] at hc
          omega
      · rw [close_panic hemp (by omega)] at hstep
        cases hstep

mutual
/-- A pane found by id carries that id. -/
theorem pane_mut_id_tree : ∀ (t : PaneTree) (i : PaneId) (p : Pane),
    t.pane_mut i = some p → p.id = i
  | .pane q, i, p, h => by
    simp only [PaneTree.pane_mut] at h
    by_cases hq : q.id = i
    · rw [if_pos hq] at h
      cases h
      exact hq
    · rw [if_neg hq] at h
      cases h
  | .split _ cs, i, p, h =>
    pane_mut_id_list cs i p (by simpa [PaneTree.pane_mut] using h)
/-- List version of `pane_mut_id_tree`. -/
theorem pane_mut_id_list : ∀ (cs : PaneTreeList) (i : PaneId) (p : Pane),
    cs.pane_mut i = some p → p.id = i
  | .nil, i, p, h => by simp [PaneTreeList.pane_mut] at h
  | .cons t ts, i, p, h => by
    simp only [PaneTreeList.pane_mut] at h
    cases ht : t.pane_mut i with
    | some q =>
      rw [ht] at h
      cases h
      exact pane_mut_id_tree t i p ht
    | none =>
      rw [ht] at h
      exact pane_mut_id_list ts i p h
end

mutual
/-- Writing a pane with the right id through the first-match slot makes the
subsequent lookup see exactly that pane. -/
theorem modify_pane_mut_tree : ∀ (t : PaneTree) (i : PaneId) (p' : Pane),
    p'.id = i → ∀ p, t.pane_mut i = some p →
      (t.modify_pane i fun _ => p').pane_mut i = some p'
  | .pane q, i, p', hid, p, h => by
    simp only [PaneTree.pane_mut] at h
    by_cases hq : q.id = i
    · simp [PaneTree.modify_pane, hq, PaneTree.pane_mut, hid]
    · rw [if_neg hq] at h
      cases h
  | .split o cs, i, p', hid, p, h => by
    simp only [PaneTree.pane_mut, PaneTree.modify_pane] at h ⊢
    exact modify_pane_mut_list cs i p' hid p h
/-- List version of `modify_pane_mut_tree`. -/
theorem modify_pane_mut_list : ∀ (cs : PaneTreeList) (i : PaneId) (p' : Pane),
    p'.id = i → ∀ p, cs.pane_mut i = some p →
      (PaneTreeList.modify_pane cs i fun _ => p').pane_mut i = some p'
  | .nil, i, p', _, p, h => by simp [PaneTreeList.pane_mut] at h
  | .cons t ts, i, p', hid, p, h => by
    simp only [PaneTreeList.pane_mut] at h
    cases ht : t.pane_mut i with
    | some q =>
      simp only [PaneTreeList.modify_pane, ht, PaneTreeList.pane_mut]
      rw [modify_pane_mut_tree t i p' hid q ht]
    | none =>
      rw [ht] at h
      simp only [PaneTreeList.modify_pane, ht, PaneTreeList.pane_mut]
      exact modify_pane_mut_list ts i p' hid p h
end

mutual
/-- Writing back the pane that was found is a no-op on the tree. -/
theorem modify_pane_self_tree : ∀ (t : PaneTree) (i : PaneId) (p : Pane),
    t.pane_mut i = some p → (t.modify_pane i fun _ => p) = t
  | .pane q, i, p, h => by
    simp only [PaneTree.pane_mut] at h
    by_cases hq : q.id = i
    · rw [if_pos hq] at h
      cases h
      simp [PaneTree.modify_pane, hq]
    · rw [if_neg hq] at h
      cases h
  | .split o cs, i, p, h => by
    simp only [PaneTree.pane_mut] at h
    simp only [PaneTree.modify_pane]
    rw [modify_pane_self_list cs i p h]
/-- List version of `modify_pane_self_tree`. -/
theorem modify_pane_self_list : ∀ (cs : PaneTreeList) (i : PaneId) (p : Pane),
    cs.pane_mut i = some p → (PaneTreeList.modify_pane cs i fun _ => p) = cs
  | .nil, i, p, h => by simp [PaneTreeList.pane_mut] at h
  | .cons t ts, i, p, h => by
    simp only [PaneTreeList.pane_mut] at h
    cases ht : t.pane_mut i with
    | some q =>
      rw [ht] at h
      cases h
      simp only [PaneTreeList.modify_pane, ht]
      rw [modify_pane_self_tree t i p ht]
    | none =>
      rw [ht] at h
      simp only [PaneTreeList.modify_pane, ht]
      rw [modify_pane_self_list ts i p h]
end

/-- Lemma: `setActivePane` does not move the active-pane id. -/
theorem setActivePane_active_id (ws : Workspace) (p : Pane) :
    (ws.setActivePane p).active_pane_id = ws.active_pane_id := rfl

/-- After writing a pane with the found pane's id back, the active-pane
lookup sees the written pane. -/
theorem setActivePane_pane_mut {ws : Workspace} {p p' : Pane}
    (h : ws.pane_tree.pane_mut ws.active_pane_id = some p) (hid : p'.id = p.id) :
    (ws.setActivePane p').pane_tree.pane_mut ws.active_pane_id = some p' := by
  have hpid := pane_mut_id_tree _ _ _ h
  exact modify_pane_mut_tree _ _ _ (hid.trans hpid) _ h

/-- Writing back the pane that was found leaves the workspace unchanged. -/
theorem setActivePane_self {ws : Workspace} {p : Pane}
    (h : ws.pane_tree.pane_mut ws.active_pane_id = some p) :
    ws.setActivePane p = ws := by
  unfold Workspace.setActivePane
  rw [modify_pane_self_tree _ _ _ h]

/-- Lemma: `open` through the dedup path: the existing item is returned and the only
mutation is the active pane's cursor. -/
theorem open_dedup {ws : Workspace} {m : ProjectItemHandle} {cx : Cx} {p : Pane}
    {v : ViewHandle} {p' : Pane}
    (hp : ws.pane_tree.pane_mut ws.active_pane_id = some p)
    (hact : p.activate_project_item m cx = .ok (some v, p')) :
    ws.open' m cx = .ok (.ok v, ws.setActivePane p', cx) := by
  simp [Workspace.open', hp, hact]

/-- Lemma: `open` through the build path: the fresh item is appended to the active
pane and returned. -/
theorem open_build {ws : Workspace} {m : ProjectItemHandle} {cx : Cx} {p : Pane}
    {v : ViewHandle} {cx' : Cx}
    (hp : ws.pane_tree.pane_mut ws.active_pane_id = some p)
    (hact : p.activate_project_item m cx = .ok (none, p))
    (hb : build_project_pane_item m cx = .ok (.ok v, cx')) :
    ws.open' m cx = .ok (.ok v, ws.setActivePane (p.add_item v), cx') := by
  simp [Workspace.open', hp, hact, hb]

/-- Lemma: `open` when the build step fails recoverably: the error is surfaced and
the pane state written back is the one activation left (unchanged). -/
theorem open_build_err {ws : Workspace} {m : ProjectItemHandle} {cx : Cx} {p : Pane}
    {msg : String} {cx' : Cx}
    (hp : ws.pane_tree.pane_mut ws.active_pane_id = some p)
    (hact : p.activate_project_item m cx = .ok (none, p))
    (hb : build_project_pane_item m cx = .ok (.error msg, cx')) :
    ws.open' m cx = .ok (.error msg, ws.setActivePane p, cx') := by
  simp [Workspace.open', hp, hact, hb]

/-- Inversion of a successful `open`: either the dedup path hit an existing
item, or activation missed, the build succeeded, and the fresh item was
appended. -/
theorem open_ok_inv {ws : Workspace} {m : ProjectItemHandle} {cx : Cx}
    {v : ViewHandle} {ws₁ : Workspace} {cx₁ : Cx}
    (h : ws.open' m cx = .ok (.ok v, ws₁, cx₁)) :
    ∃ p, ws.pane_tree.pane_mut ws.active_pane_id = some p ∧
      ((∃ p', p.activate_project_item m cx = .ok (some v, p') ∧
          ws₁ = ws.setActivePane p' ∧ cx₁ = cx) ∨
       (p.activate_project_item m cx = .ok (none, p) ∧
        build_project_pane_item m cx = .ok (.ok v, cx₁) ∧
        ws₁ = ws.setActivePane (p.add_item v))) := by
  cases hp : ws.pane_tree.pane_mut ws.active_pane_id with
  | none =>
    have hop : ws.open' m cx = .error "called Option::unwrap on a None value" := by
      simp [Workspace.open', hp]
    rw [hop] at h
    cases h
  | some p =>
    refine ⟨p, rfl, ?_⟩
    cases hact : p.activate_project_item m cx with
    | error msg =>
      have hop : ws.open' m cx = .error msg := by
        simp [Workspace.open', hp, hact]
      rw [hop] at h
      cases h
    | ok rp =>
      obtain ⟨r, p'⟩ := rp
      cases r with
      | some w =>
        rw [open_dedup hp hact] at h
        cases h
        exact Or.inl ⟨p', rfl, rfl, rfl⟩
      | none =>
        have hpe : p' = p := activate_none_eq hact
        subst hpe
        cases hb : build_project_pane_item m cx with
        | error msg =>
          have hop : ws.open' m cx = .error msg := by
            simp [Workspace.open', hp, hact, hb]
          rw [hop] at h
          cases h
        | ok rc =>
          obtain ⟨r', cx'⟩ := rc
          cases r' with
          | error msg =>
            rw [open_build_err hp hact hb] at h
            cases h
          | ok w =>
            rw [open_build hp hact hb] at h
            cases h
            exact Or.inr ⟨rfl, rfl, rfl⟩

/-- The active item count reads the active pane's item list. -/
theorem activeItemCount_eq {ws : Workspace} {p : Pane}
    (h : ws.pane_tree.pane_mut ws.active_pane_id = some p) :
    ws.activeItemCount = p.items.length := by
  unfold Workspace.activeItemCount
  rw [h]

/-- The active item count after writing a pane with the found pane's id
back. -/
theorem activeItemCount_setActivePane {ws : Workspace} {p q : Pane}
    (h : ws.pane_tree.pane_mut ws.active_pane_id = some p) (hid : q.id = p.id) :
    (ws.setActivePane q).activeItemCount = q.items.length := by
  have hm := setActivePane_pane_mut h hid
  unfold Workspace.activeItemCount
  rw [show (ws.setActivePane q).active_pane_id = ws.active_pane_id from rfl, hm]

/-- The pane `{ id := 0, items := [I1], active_item_index := 1 }` is reachable
from a fresh pane: add I1 and I2, dedup-activate I2 (cursor moves to 1), then
close it (the cursor is left one past the end). -/
theorem reachable_pane_v1_1 : PaneReachable cx0 ⟨0, [v1], 1⟩ := by
  have h1 : PaneReachable cx0 ⟨0, [v1, v2], 0⟩ :=
    ((PaneReachable.new 0).add v1).add v2
  have h2 : PaneReachable cx0 ⟨0, [v1, v2], 1⟩ :=
    h1.activate
      (show Pane.activate_project_item ⟨0, [v1, v2], 0⟩ m2 cx0 =
        .ok (some v2, ⟨0, [v1, v2], 1⟩) from rfl)
  exact h2.close
    (show Pane.close_active_item ⟨0, [v1, v2], 1⟩ = .ok (true, ⟨0, [v1], 1⟩) from rfl)

/-- C2: the no-panic property fails on the code. From a fresh workspace with
one registered kind, the core-operation sequence open E1, open E2, open E2
(the dedup activation moves the cursor to index 1), close the active item
(items shrink to one, the cursor stays at 1), close again, evaluates the
out-of-range splice `1..2` on a one-element vector and panics. -/
theorem close_after_last_close_panics :
    runOps [.openOp m1, .openOp m2, .openOp m2,
            .closeActivePaneItemOp, .closeActivePaneItemOp]
        (Workspace.new, cx0) =
      .error "splice range end out of bounds" := rfl

/-- C3 counterexample: after opening E1, opening E1 again (dedup), and
opening E2, the active pane holds [I1, I2] with `active_item_index = 0` (not
1 as claimed: `add_item` never moves the cursor), and closing the active item
removes I1, leaving [I2], not [I1]. -/
theorem open_scenario_cex :
    runOps [.openOp m1, .openOp m1, .openOp m2] (Workspace.new, cx0) =
      .ok (⟨.pane ⟨0, [v1, v2], 0⟩, 1, 0⟩, { cx0 with next_view_id := 2 }) ∧
    (0 : Nat) ≠ 1 ∧
    Pane.close_active_item ⟨0, [v1, v2], 0⟩ = .ok (true, ⟨0, [v2], 0⟩) ∧
    ([v2] : List ViewHandle) ≠ [v1] := by
  refine ⟨rfl, by decide, rfl, by decide⟩

/-- C3 amended: the same trace with the values the code produces. After the
two opens of E1 the pane is [I1] with cursor 0; after opening E2 the pane is
[I1, I2] with cursor still 0 (I1 stays active); closing the active item then
removes I1 and leaves [I2]. -/
theorem open_scenario_amended :
    runOps [.openOp m1, .openOp m1] (Workspace.new, cx0) =
      .ok (⟨.pane ⟨0, [v1], 0⟩, 1, 0⟩, { cx0 with next_view_id := 1 }) ∧
    runOps [.openOp m1, .openOp m1, .openOp m2] (Workspace.new, cx0) =
      .ok (⟨.pane ⟨0, [v1, v2], 0⟩, 1, 0⟩, { cx0 with next_view_id := 2 }) ∧
    runOps [.openOp m1, .openOp m1, .openOp m2, .closeActivePaneItemOp]
        (Workspace.new, cx0) =
      .ok (⟨.pane ⟨0, [v2], 0⟩, 1, 0⟩, { cx0 with next_view_id := 2 }) :=
  ⟨rfl, rfl, rfl⟩

/-- C4 counterexample: a reachable pane (add I1, add I2, dedup-activate I2,
close it) that is non-empty but whose active index equals — rather than
stays below — its item count. -/
theorem pane_index_invariant_cex :
    PaneReachable cx0 ⟨0, [v1], 1⟩ ∧
    (⟨0, [v1], 1⟩ : Pane).items ≠ [] ∧
    ¬ ((⟨0, [v1], 1⟩ : Pane).active_item_index <
        (⟨0, [v1], 1⟩ : Pane).items.length) :=
  ⟨reachable_pane_v1_1, by decide, by decide⟩

/-- C4 amended: the invariant each pane operation actually preserves is
`active_item_index ≤ items.len()`; closing the last-positioned item can leave
the index equal to the length, so the strict bound does not hold in every
reachable non-empty state. -/
theorem pane_index_invariant_amended {cx : Cx} {p : Pane}
    (h : PaneReachable cx p) : p.active_item_index ≤ p.items.length :=
  (reachable_inv h).1

/-- Witness for the amended C4 invariant at a concrete reachable pane. -/
theorem pane_index_invariant_amended_witness :
    (⟨0, [v1], 1⟩ : Pane).active_item_index ≤ (⟨0, [v1], 1⟩ : Pane).items.length :=
  pane_index_invariant_amended reachable_pane_v1_1

/-- C5 counterexample: on the reachable one-item pane whose active index is 1,
`close_active_item` does not return success and does not shrink the list — it
evaluates the out-of-range splice and panics. -/
theorem close_semantics_cex :
    PaneReachable cx0 ⟨0, [v1], 1⟩ ∧
    (⟨0, [v1], 1⟩ : Pane).items.length = 1 ∧
    Pane.close_active_item ⟨0, [v1], 1⟩ = .error "splice range end out of bounds" :=
  ⟨reachable_pane_v1_1, rfl, rfl⟩

/-- C5 amended: for a pane whose active index is in range (which is every
non-empty pane the invariant intends), closing removes exactly the item at
the active index, shifting later items left and shrinking the count by one,
and returns success; closing an empty pane returns the no-item-to-close
signal and changes nothing. -/
theorem close_semantics_amended (p : Pane) :
    (∀ _ : p.active_item_index < p.items.length,
      p.close_active_item =
        .ok (true,
          { p with items :=
              p.items.take p.active_item_index ++
                p.items.drop (p.active_item_index + 1) }) ∧
      (p.items.take p.active_item_index ++
        p.items.drop (p.active_item_index + 1)).length = p.items.length - 1) ∧
    (p.items = [] → p.close_active_item = .ok (false, p)) := by
  constructor
  · intro h
    exact ⟨close_nonempty h, close_items_length h⟩
  · exact close_empty

/-- Witness for the amended C5 close semantics at concrete panes. -/
theorem close_semantics_amended_witness :
    Pane.close_active_item ⟨0, [v1, v2], 0⟩ = .ok (true, ⟨0, [v2], 0⟩) ∧
    Pane.close_active_item ⟨0, [], 5⟩ = .ok (false, ⟨0, [], 5⟩) :=
  ⟨((close_semantics_amended ⟨0, [v1, v2], 0⟩).1 (by decide)).1,
   (close_semantics_amended ⟨0, [], 5⟩).2 rfl⟩

/-- C6: registry totality. Registration records the model kind; on a
well-formed registry, `build` on any registered model kind never fails with
`UnregisteredKind` and returns a freshly constructed project pane item
wrapping exactly the given model; on any never-registered kind it always
fails with `UnregisteredKind` (and touches nothing). -/
theorem build_registry_totality {cx : Cx} (hwf : cx.wf) (m : ProjectItemHandle) :
    (∀ mt vt : TypeId, mt ∈ (register_project_pane_item mt vt cx).builders.map Prod.fst) ∧
    (m.item_type ∈ cx.builders.map Prod.fst →
      ∃ v cx', build_project_pane_item m cx = .ok (.ok v, cx') ∧
        v.view_id = cx.next_view_id ∧ v.model = m ∧
        cx' = { cx with next_view_id := cx.next_view_id + 1 }) ∧
    (m.item_type ∉ cx.builders.map Prod.fst →
      build_project_pane_item m cx = .ok (.error unregisteredKindMsg, cx)) := by
  refine ⟨fun mt vt => register_mem_builders cx mt vt, ?_, build_fail⟩
  intro hreg
  obtain ⟨vt, hvt, hbs⟩ := build_success hwf hreg
  exact ⟨⟨vt, cx.next_view_id, m⟩, _, hbs, rfl, rfl, rfl⟩

/-- Witness for C6: on the fixture registry, `build` succeeds for the
registered kind and fails with `UnregisteredKind` for an unregistered one. -/
theorem build_registry_totality_witness :
    (∃ v cx', build_project_pane_item m1 cx0 = .ok (.ok v, cx') ∧
      v.view_id = cx0.next_view_id ∧ v.model = m1 ∧
      cx' = { cx0 with next_view_id := cx0.next_view_id + 1 }) ∧
    build_project_pane_item ⟨5, none⟩ cx0 = .ok (.error unregisteredKindMsg, cx0) :=
  ⟨(build_registry_totality (by decide) m1).2.1 (by decide),
   (build_registry_totality (by decide) ⟨5, none⟩).2.2 (by decide)⟩

/-- C8: error atomicity of `open`. When the dedup check misses and the
model's kind is unregistered, `open` surfaces the `UnregisteredKind` error
to the caller and returns with the workspace — in particular the active
pane's item list and active index — and the registry state exactly as they
were: no item is appended and no view is constructed. -/
theorem open_unregistered_atomic {cx : Cx} {ws : Workspace}
    {m : ProjectItemHandle} {p : Pane}
    (hp : ws.pane_tree.pane_mut ws.active_pane_id = some p)
    (hact : p.activate_project_item m cx = .ok (none, p))
    (hreg : m.item_type ∉ cx.builders.map Prod.fst) :
    ws.open' m cx = .ok (.error unregisteredKindMsg, ws, cx) := by
  have h := open_build_err hp hact (build_fail hreg)
  rwa [setActivePane_self hp] at h

/-- Witness for C8: opening a model of an unregistered kind on a fresh
workspace with an empty registry returns the error and the unchanged state. -/
theorem open_unregistered_atomic_witness :
    Workspace.new.open' ⟨5, some 7⟩ Cx.init =
      .ok (.error unregisteredKindMsg, Workspace.new, Cx.init) :=
  open_unregistered_atomic rfl rfl (by decide)

/-- C9: `add_item` appends at the end, leaves the pane id, every existing
item, and the active index unchanged; and on a reachable previously-empty
pane the new item ends up active at index 0 (reachable empty panes always
carry index 0). -/
theorem add_item_frame (p : Pane) (v : ViewHandle) :
    (p.add_item v).items = p.items ++ [v] ∧
    (p.add_item v).id = p.id ∧
    (p.add_item v).active_item_index = p.active_item_index ∧
    (∀ cx, PaneReachable cx p → p.items = [] →
      (p.add_item v).active_item_index = 0 ∧ (p.add_item v).items = [v]) := by
  refine ⟨rfl, rfl, rfl, ?_⟩
  intro cx hr h0
  refine ⟨(reachable_inv hr).2 h0, ?_⟩
  show p.items ++ [v] = [v]
  rw [h0]
  rfl

/-- Witness for C9 at a fresh pane. -/
theorem add_item_frame_witness :
    ((Pane.new 0).add_item v1).items = [] ++ [v1] ∧
    ((Pane.new 0).add_item v1).active_item_index = 0 :=
  ⟨(add_item_frame (Pane.new 0) v1).1,
   ((add_item_frame (Pane.new 0) v1).2.2.2 cx0 (.new 0) rfl).1⟩

/-- C10: registration-path downcast safety. On a well-formed registry (the
shape every sequence of `register_project_pane_item` calls produces, where
each table is keyed by the exact dynamic type its closure downcasts to),
`build` never panics — the registered builder's model downcast cannot fail —
and every item it constructs converts back through
`to_project_pane_item` as `Some` of itself: the converter's view downcast
cannot fail either. -/
theorem registered_downcasts_safe {cx : Cx} (hwf : cx.wf) :
    (∀ m : ProjectItemHandle, ∃ r cx', build_project_pane_item m cx = .ok (r, cx')) ∧
    (∀ (m : ProjectItemHandle) (v : ViewHandle) (cx' : Cx),
      build_project_pane_item m cx = .ok (.ok v, cx') →
      v.to_project_pane_item cx' = .ok (some v)) := by
  constructor
  · intro m
    by_cases hreg : m.item_type ∈ cx.builders.map Prod.fst
    · obtain ⟨vt, hvt, hbs⟩ := build_success hwf hreg
      exact ⟨_, _, hbs⟩
    · exact ⟨_, _, build_fail hreg⟩
  · intro m v cx' hb
    by_cases hreg : m.item_type ∈ cx.builders.map Prod.fst
    · obtain ⟨vt, hvt, hbs⟩ := build_success hwf hreg
      rw [hbs] at hb
      cases hb
      exact tpp_of_mem hwf hvt
    · rw [build_fail hreg] at hb
      cases hb

/-- Witness for C10 on the fixture registry: the built view for `m1`
round-trips through the converter. -/
theorem registered_downcasts_safe_witness :
    build_project_pane_item m1 cx0 = .ok (.ok v1, cxA) ∧
    ViewHandle.to_project_pane_item v1 cxA = .ok (some v1) :=
  ⟨rfl, (@registered_downcasts_safe cx0 (by decide)).2 m1 v1 cxA rfl⟩

/-- C1 counterexample: on the (reachable) workspace that already holds the
item for entry E1, the claimed "item count increases by exactly 1" fails:
opening `m1` twice returns the same handle both times but the count stays at
1, one short of the claimed `1 + 1`. The first conjunct shows `wsA` is the
result of one prior open from a fresh workspace; the second shows one open
from `wsA` returns `v1` and leaves the state — hence also the second of the
two calls and the final count — exactly at `wsA` with count 1. -/
theorem dedup_idempotence_cex :
    Workspace.new.open' m1 cx0 = .ok (.ok v1, wsA, cxA) ∧
    wsA.open' m1 cxA = .ok (.ok v1, wsA, cxA) ∧
    wsA.activeItemCount = 1 ∧
    ¬ ((1 : Nat) = 1 + 1) :=
  ⟨rfl, rfl, rfl, by decide⟩

/-- C1 amended: on a well-formed registry, for a model with a defined entry
id, if one `open` succeeds with handle `v`, a second `open` of the same model
returns the same handle `v`, never changes the item count again, and the
first call raised the count by at most one (exactly one when it built, zero
when it deduplicated). -/
theorem dedup_idempotence_amended {cx : Cx} (hwf : cx.wf) {ws : Workspace}
    {m : ProjectItemHandle} {e : EntryId} (he : m.entry_id = some e)
    {v : ViewHandle} {ws₁ : Workspace} {cx₁ : Cx}
    (h : ws.open' m cx = .ok (.ok v, ws₁, cx₁)) :
    ∃ ws₂, ws₁.open' m cx₁ = .ok (.ok v, ws₂, cx₁) ∧
      ws₂.activeItemCount = ws₁.activeItemCount ∧
      (ws₁.activeItemCount = ws.activeItemCount ∨
        ws₁.activeItemCount = ws.activeItemCount + 1) := by
  obtain ⟨p, hp, hcase⟩ := open_ok_inv h
  rcases hcase with ⟨p', hact, hws₁, hcx₁⟩ | ⟨hact, hb, hws₁⟩
  · -- dedup path on the first call
    subst hws₁
    subst cx₁
    obtain ⟨e', ix, hm', hf, hp'eq⟩ := activate_some_inv hact
    have hee : e' = e := by
      have hse := he.symm.trans hm'
      injection hse with hse'
      exact hse'.symm
    subst e'
    subst hp'eq
    have hpm1 : (ws.setActivePane { p with active_item_index := ix }).pane_tree.pane_mut
        (ws.setActivePane { p with active_item_index := ix }).active_pane_id =
          some { p with active_item_index := ix } :=
      setActivePane_pane_mut hp rfl
    have hf' : findMatch cx e ({ p with active_item_index := ix } : Pane).items 0 =
        .ok (some (ix, v)) := hf
    have hact2 : ({ p with active_item_index := ix } : Pane).activate_project_item m cx =
        .ok (some v, { p with active_item_index := ix }) :=
      activate_of_findMatch_some he hf'
    refine ⟨_, open_dedup hpm1 hact2, ?_, Or.inl ?_⟩
    · rw [activeItemCount_setActivePane (q := { p with active_item_index := ix }) hpm1 rfl,
          activeItemCount_setActivePane (q := { p with active_item_index := ix }) hp rfl]
    · rw [activeItemCount_setActivePane (q := { p with active_item_index := ix }) hp rfl,
          activeItemCount_eq hp]
  · -- build path on the first call
    subst hws₁
    have hreg : m.item_type ∈ cx.builders.map Prod.fst := by
      by_contra hnr
      rw [build_fail hnr] at hb
      cases hb
    obtain ⟨vt, hvt, hbs⟩ := build_success hwf hreg
    rw [hbs] at hb
    cases hb
    have hscan0 : findMatch cx e p.items 0 = .ok none := activate_none_findMatch hact he
    have hconv : cx.converters =
        ({ cx with next_view_id := cx.next_view_id + 1 } : Cx).converters := rfl
    have hscan0' : findMatch { cx with next_view_id := cx.next_view_id + 1 } e p.items 0 =
        .ok none := by
      rw [← findMatch_congr hconv e p.items 0]
      exact hscan0
    have hwf' : ({ cx with next_view_id := cx.next_view_id + 1 } : Cx).wf := hwf
    have hvt' : vt ∈ ({ cx with next_view_id := cx.next_view_id + 1 } : Cx).converters.map
        Prod.fst := hvt
    have hentry : (⟨vt, cx.next_view_id, m⟩ : ViewHandle).model.entry_id = some e := he
    have htpp : ViewHandle.to_project_pane_item ⟨vt, cx.next_view_id, m⟩
        { cx with next_view_id := cx.next_view_id + 1 } =
          .ok (some ⟨vt, cx.next_view_id, m⟩) := tpp_of_mem hwf' hvt'
    have hsingle : findMatch { cx with next_view_id := cx.next_view_id + 1 } e
        [⟨vt, cx.next_view_id, m⟩] (0 + p.items.length) =
          .ok (some (0 + p.items.length, ⟨vt, cx.next_view_id, m⟩)) := by
      simp [findMatch, htpp, he]
    have hscan2 : findMatch { cx with next_view_id := cx.next_view_id + 1 } e
        (p.items ++ [⟨vt, cx.next_view_id, m⟩]) 0 =
          .ok (some (p.items.length, ⟨vt, cx.next_view_id, m⟩)) := by
      rw [findMatch_append hscan0' [⟨vt, cx.next_view_id, m⟩], hsingle]
      simp
    have hf2 : findMatch { cx with next_view_id := cx.next_view_id + 1 } e
        (p.add_item ⟨vt, cx.next_view_id, m⟩).items 0 =
          .ok (some (p.items.length, ⟨vt, cx.next_view_id, m⟩)) := hscan2
    have hact2 := activate_of_findMatch_some (p := p.add_item ⟨vt, cx.next_view_id, m⟩)
      he hf2
    have hpm1 : (ws.setActivePane (p.add_item ⟨vt, cx.next_view_id, m⟩)).pane_tree.pane_mut
        (ws.setActivePane (p.add_item ⟨vt, cx.next_view_id, m⟩)).active_pane_id =
          some (p.add_item ⟨vt, cx.next_view_id, m⟩) :=
      setActivePane_pane_mut hp rfl
    refine ⟨_, open_dedup hpm1 hact2, ?_, Or.inr ?_⟩
    · rw [activeItemCount_setActivePane
            (q := { p.add_item ⟨vt, cx.next_view_id, m⟩ with
                      active_item_index := p.items.length }) hpm1 rfl,
          activeItemCount_setActivePane
            (q := p.add_item ⟨vt, cx.next_view_id, m⟩) hp rfl]
    · rw [activeItemCount_setActivePane
            (q := p.add_item ⟨vt, cx.next_view_id, m⟩) hp rfl,
          activeItemCount_eq hp]
      simp [Pane.add_item]

/-- Witness for the amended C1 on the fixture: opening `m1` on a fresh
workspace succeeds, and a second open returns the same handle without
changing the count. -/
theorem dedup_idempotence_amended_witness :
    ∃ ws₂, wsA.open' m1 cxA = .ok (.ok v1, ws₂, cxA) ∧
      ws₂.activeItemCount = wsA.activeItemCount ∧
      (wsA.activeItemCount = Workspace.new.activeItemCount ∨
        wsA.activeItemCount = Workspace.new.activeItemCount + 1) :=
  dedup_idempotence_amended (by decide) rfl
    (show Workspace.new.open' m1 cx0 = .ok (.ok v1, wsA, cxA) from rfl)

/-- C7: activate-matching behaviour, on a well-formed registry. (1) A
candidate without an entry id activates nothing and mutates nothing. (2) If
no stored item matches the candidate's entry id, activation returns nothing
and mutates nothing. (3) If the item at position `ix` matches and every
earlier item does not, activation returns exactly that item and its only
mutation is setting `active_item_index := ix` — the leftmost match wins.
(4) Hence two distinct identity-free models are never deduplicated: opening
both (kinds registered) appends two distinct items and raises the count by
two. -/
theorem activate_matching_spec {cx : Cx} (hwf : cx.wf) :
    (∀ (p : Pane) (m : ProjectItemHandle), m.entry_id = none →
      p.activate_project_item m cx = .ok (none, p)) ∧
    (∀ (p : Pane) (m : ProjectItemHandle) (e : EntryId), m.entry_id = some e →
      (∀ v ∈ p.items, matchesEntryB cx e v = false) →
      p.activate_project_item m cx = .ok (none, p)) ∧
    (∀ (p : Pane) (m : ProjectItemHandle) (e : EntryId) (ix : Nat) (v : ViewHandle),
      m.entry_id = some e → p.items[ix]? = some v → matchesEntryB cx e v = true →
      (∀ j w, j < ix → p.items[j]? = some w → matchesEntryB cx e w = false) →
      p.activate_project_item m cx =
        .ok (some v, { p with active_item_index := ix })) ∧
    (∀ (ws : Workspace) (p : Pane) (n₁ n₂ : ProjectItemHandle),
      ws.pane_tree.pane_mut ws.active_pane_id = some p →
      n₁.entry_id = none → n₂.entry_id = none →
      n₁.item_type ∈ cx.builders.map Prod.fst →
      n₂.item_type ∈ cx.builders.map Prod.fst →
      ∃ u₁ u₂ ws₁ cx₁ ws₂ cx₂,
        ws.open' n₁ cx = .ok (.ok u₁, ws₁, cx₁) ∧
        ws₁.open' n₂ cx₁ = .ok (.ok u₂, ws₂, cx₂) ∧
        u₁ ≠ u₂ ∧ ws₂.activeItemCount = ws.activeItemCount + 2) := by
  refine ⟨?_, ?_, ?_, ?_⟩
  · intro p m hm
    exact activate_entry_none hm
  · intro p m e hm hall
    exact activate_of_findMatch_none hm (findMatch_none_of_all hwf hall 0)
  · intro p m e ix v hm hget hmatch hprev
    have hf := findMatch_first hwf 0 hget hmatch hprev
    rw [Nat.zero_add] at hf
    exact activate_of_findMatch_some hm hf
  · intro ws p n₁ n₂ hp h1 h2 hr1 hr2
    obtain ⟨t₁, hvt₁, hb₁⟩ := build_success hwf hr1
    have hopen1 := open_build hp (activate_entry_none h1) hb₁
    have hwf1 : ({ cx with next_view_id := cx.next_view_id + 1 } : Cx).wf := hwf
    have hr2' : n₂.item_type ∈
        ({ cx with next_view_id := cx.next_view_id + 1 } : Cx).builders.map Prod.fst := hr2
    obtain ⟨t₂, hvt₂, hb₂⟩ := build_success hwf1 hr2'
    have hpm1 : (ws.setActivePane (p.add_item ⟨t₁, cx.next_view_id, n₁⟩)).pane_tree.pane_mut
        (ws.setActivePane (p.add_item ⟨t₁, cx.next_view_id, n₁⟩)).active_pane_id =
          some (p.add_item ⟨t₁, cx.next_view_id, n₁⟩) := setActivePane_pane_mut hp rfl
    have hact2 : (p.add_item ⟨t₁, cx.next_view_id, n₁⟩).activate_project_item n₂
        { cx with next_view_id := cx.next_view_id + 1 } =
          .ok (none, p.add_item ⟨t₁, cx.next_view_id, n₁⟩) := activate_entry_none h2
    have hopen2 := open_build hpm1 hact2 hb₂
    refine ⟨_, _, _, _, _, _, hopen1, hopen2, ?_, ?_⟩
    · intro huv
      have h12 := congrArg ViewHandle.view_id huv
      dsimp only at h12
      omega
    · rw [activeItemCount_setActivePane
            (q := (p.add_item ⟨t₁, cx.next_view_id, n₁⟩).add_item
              ⟨t₂, ({ cx with next_view_id := cx.next_view_id + 1 } : Cx).next_view_id, n₂⟩)
            hpm1 rfl,
          activeItemCount_eq hp]
      simp [Pane.add_item]

/-- Witness for C7 on the fixture: activation finds the leftmost stored item
for entry 1 and activates it; a candidate without an entry id activates
nothing and leaves the pane unchanged. -/
theorem activate_matching_spec_witness :
    Pane.activate_project_item ⟨0, [v1], 0⟩ m1 cx0 = .ok (some v1, ⟨0, [v1], 0⟩) ∧
    Pane.activate_project_item ⟨0, [v1], 0⟩ ⟨0, none⟩ cx0 = .ok (none, ⟨0, [v1], 0⟩) :=
  ⟨(activate_matching_spec (by decide)).2.2.1 ⟨0, [v1], 0⟩ m1 1 0 v1 rfl rfl
      (by decide) (fun j w hj _ => absurd hj (Nat.not_lt_zero j)),
   (activate_matching_spec (by decide)).1 ⟨0, [v1], 0⟩ ⟨0, none⟩ rfl⟩

end Ws2
